import Mathlib

/-!
Shallow embedding of src/adapter-neofoxx.c (pic32prog, Neofoxx fork):
the host-side packet transport, the JTAG/EJTAG register layer, the
serial-execution bootstrap and the PE command client, together with
theorems settling claims C1 to C10 about them.

Machine integers are modelled as Nat with an explicit `% 2^w` wherever
C overflow or truncation matters.  The serial transport is an oracle:
bytes the adapter would send are returned to the caller, bytes the
adapter would receive are supplied as explicit list or stream
arguments.  Delays (mdelay) and diagnostic printing have no observable
effect on the modelled state and are dropped; where a printed
diagnostic is the observable a claim asks about, it is reflected as an
explicit field of the result.
-/

/- Modelled from the spec: the status/control bit masks and the PE opcode
numbers come from pic32.h, which is not among the analysed sources; the
spec names the CPS status bit, the ProbEn/PrACC control bits and the PE
opcodes without numeric values, so fixed representative constants are
used here.  Every claim below depends only on the constants being fixed
values (with the named bits nonzero), never on the particular numbers. -/

/-- Modelled from the spec: CPS bit of the MCHP status word (pic32.h). -/
def MCHP_STATUS_CPS : Nat := 0x80

/-- Modelled from the spec: ProbEn bit of the EJTAG control register (pic32.h). -/
def CONTROL_PROBEN : Nat := 0x8000

/-- Modelled from the spec: PrACC bit of the EJTAG control register (pic32.h). -/
def CONTROL_PRACC : Nat := 0x40000

/-- Modelled from the spec: PE READ opcode (pic32.h). -/
def PE_READ : Nat := 1

/-- Modelled from the spec: PE WORD_PROGRAM opcode (pic32.h). -/
def PE_WORD_PROGRAM : Nat := 3

/-- Modelled from the spec: PE QUAD_WORD_PROGRAM opcode (pic32.h). -/
def PE_QUAD_WORD_PGRM : Nat := 0xD

/-- Modelled from the spec: PE GET_CRC opcode (pic32.h). -/
def PE_GET_CRC : Nat := 8

/-- adapter-neofoxx.c line 79: packet sync byte. -/
def PACKET_BYTE : Nat := 0x70

/-- adapter-neofoxx.c line 87: SEND command opcode. -/
def COMMAND_SEND : Nat := 6

/-- adapter-neofoxx.c lines 61-62. -/
def TMS_HEADER_XFERDATA_NBITS : Nat := 3

def TMS_HEADER_XFERDATA_VAL : Nat := 1

/-- adapter-neofoxx.c lines 70-71. -/
def TMS_FOOTER_XFERDATA_NBITS : Nat := 2

def TMS_FOOTER_XFERDATA_VAL : Nat := 1

/-- adapter-neofoxx.c lines 120-123: the 16-entry nibble table of
calculate_crc. -/
def crc_table : List Nat :=
  [0x0000, 0x1021, 0x2042, 0x3063, 0x4084, 0x50a5, 0x60c6, 0x70e7,
   0x8108, 0x9129, 0xa14a, 0xb16b, 0xc18c, 0xd1ad, 0xe1ce, 0xf1ef]

/-- One byte of the calculate_crc loop body (adapter-neofoxx.c lines
126-132).  `crc` is a 32-bit unsigned in C, so the left shifts are
taken mod 2^32. -/
def crcStep (crc b : Nat) : Nat :=
  let i1 := ((crc >>> 12) ^^^ (b >>> 4)) &&& 0xF
  let c1 := (crc_table.getD i1 0) ^^^ ((crc <<< 4) % 4294967296)
  let i2 := ((c1 >>> 12) ^^^ b) &&& 0xF
  (crc_table.getD i2 0) ^^^ ((c1 <<< 4) % 4294967296)

/-- adapter-neofoxx.c lines 118-134: table-driven CRC16 over a byte
range; only the low 16 bits are returned. -/
def calculate_crc (crc : Nat) : List Nat → Nat
  | [] => crc &&& 0xffff
  | b :: rest => calculate_crc (crcStep crc b) rest

/-- The transport-relevant mutable fields of neofoxx_adapter_t
(adapter-neofoxx.c lines 33-41).  `output` holds the first
`bytes_to_write` bytes of the outbound buffer, `input` the
`bytes_in_buffer` received bytes. -/
structure Session where
  output : List Nat
  input : List Nat
  bytes_to_read : Nat
  current_pos_input : Nat
deriving DecidableEq

/-- adapter-neofoxx.c lines 136-153: append data to the outbound
buffer, opening a new packet (sync byte plus two zero length
placeholders) when the buffer is empty. -/
def add_to_packet (s : Session) (data : List Nat) : Session :=
  if s.output.isEmpty then { s with output := PACKET_BYTE :: 0 :: 0 :: data }
  else { s with output := s.output ++ data }

/-- adapter-neofoxx.c lines 158-218 (bulk_write): the bytes actually
written to the transport for an outbound buffer `buf`.  Nothing is
written when the buffer holds fewer than 4 bytes.  Otherwise the 8-bit
sum of the bytes from position 2 on is appended, and then the two
length-placeholder bytes are patched with the 16-bit value
total_length - 3, low byte at position 1, high byte at position 2. -/
def bulk_write (buf : List Nat) : List Nat :=
  if buf.length < 4 then []
  else
    let crc := (buf.drop 2).sum % 256
    let buf2 := buf ++ [crc]
    let shortTemp := (buf2.length - 3) % 65536
    (buf2.set 1 (shortTemp % 256)).set 2 (shortTemp >>> 8)

/-- adapter-neofoxx.c lines 224-252 (neofoxx_flush_output): no-op when
the outbound buffer is empty; otherwise write it out and clear it, and
only when a reply is expected (bytes_to_read > 0) block-read exactly
that many bytes into the inbound buffer, then clear the expected
length and reset the read cursor.  `reply` is the byte stream the
transport delivers. -/
def neofoxx_flush_output (s : Session) (reply : List Nat) : Session :=
  if s.output.isEmpty then s
  else
    let s1 : Session := { s with output := [] }
    if s.bytes_to_read = 0 then s1
    else { s1 with input := reply.take s.bytes_to_read,
                   bytes_to_read := 0,
                   current_pos_input := 0 }

/-- Little-endian byte encoding of a 32-bit value (the layout memcpy
produces on the little-endian host). -/
def le32 (x : Nat) : List Nat :=
  [x % 256, x / 2 ^ 8 % 256, x / 2 ^ 16 % 256, x / 2 ^ 24 % 256]

/-- Little-endian byte encoding of a 64-bit value. -/
def le64 (x : Nat) : List Nat :=
  le32 (x % 2 ^ 32) ++ le32 (x / 2 ^ 32 % 2 ^ 32)

/-- Value of a little-endian byte list. -/
def leVal (bytes : List Nat) : Nat :=
  bytes.foldr (fun b acc => b + 256 * acc) 0

/-- adapter-neofoxx.c lines 368-406 (neofoxx_send): encode one SEND
command into the outbound buffer; when the read flag is set, register
an 8-byte expected reply. -/
def neofoxx_send (s : Session) (tms_prolog_nbits tms_prolog tdi_nbits : Nat)
    (tdi : Nat) (tms_epilog_nbits tms_epilog : Nat) (read_flag : Bool) : Session :=
  let data := COMMAND_SEND ::
    (le32 tms_prolog_nbits ++ le32 tms_prolog ++ le32 tdi_nbits ++ le64 tdi ++
     le32 tms_epilog_nbits ++ le32 tms_epilog ++ le32 (if read_flag then 1 else 0))
  let s1 := add_to_packet s data
  if read_flag then { s1 with bytes_to_read := s1.bytes_to_read + 8 } else s1

/-- adapter-neofoxx.c lines 408-433 (neofoxx_recv): flush, then memcpy
the 8 bytes at the read cursor out of the inbound buffer as one 64-bit
little-endian word and advance the cursor by 8. -/
def neofoxx_recv (s : Session) (reply : List Nat) : Nat × Session :=
  let s1 := neofoxx_flush_output s reply
  let word := leVal ((s1.input.drop s1.current_pos_input).take 8)
  (word, { s1 with current_pos_input := s1.current_pos_input + 8 })

/-- adapter-neofoxx.c lines 514-528 (neofoxx_xferData): wrap an
nBits-wide DR transfer in the XferData TMS wrapper; with the read flag
set, receive (which flushes) and return the reply word. -/
def neofoxx_xferData (s : Session) (nBits iData : Nat) (readFlag immediate : Bool)
    (reply : List Nat) : Nat × Session :=
  let s1 := neofoxx_send s TMS_HEADER_XFERDATA_NBITS TMS_HEADER_XFERDATA_VAL
              nBits iData TMS_FOOTER_XFERDATA_NBITS TMS_FOOTER_XFERDATA_VAL readFlag
  if readFlag then neofoxx_recv s1 reply
  else if immediate then (0, neofoxx_flush_output s1 reply) else (0, s1)

/-- Interface modes (adapter.h: INTERFACE_DEFAULT / INTERFACE_JTAG /
INTERFACE_ICSP, used throughout adapter-neofoxx.c). -/
inductive Iface where
  | default
  | jtag
  | icsp
deriving DecidableEq

/-- Device families (adapter.h FAMILY_* constants as used by
adapter-neofoxx.c). -/
inductive Family where
  | mx1
  | mx3
  | mk
  | mz
  | mm
deriving DecidableEq

/-- How one call of serial_execution (adapter-neofoxx.c lines 710-832)
ends.  `noop` is the early return when the sticky flag is already set;
`fatalCps` is the exit(-1) at the status check (line 734, the
erase-first diagnostic); `fatalRecovery` is the exit(-1) in the
JTAG-mode failure branch for families without shared ICSP pins (line
817); `returnedEntered` / `returnedFailed` are the normal returns with
ProbEn finally observed set / still clear. -/
inductive SEOutcome where
  | noop
  | fatalCps
  | fatalRecovery
  | returnedEntered
  | returnedFailed
deriving DecidableEq

/-- Result of the outer entry loop: how it ended, how many outer
iterations ran, and how many control-register reads were consumed. -/
structure LoopResult where
  outcome : SEOutcome
  iters : Nat
  nextIdx : Nat
deriving DecidableEq

/-- adapter-neofoxx.c lines 787-790: the inner re-verify poll
`counterPre = 11; do { status = xferData(32, PRACC|PROBEN|PROBTRAP, 1, 1); }
while (!(status & CONTROL_PROBEN) && counterPre-- > 1);`.
`ctl` is the stream of control-register read results and `idx` the
next read index; the post-decrement test means the body runs while the
tested value exceeds 1.  Returns the last status and the next index. -/
def innerPollAux (ctl : Nat → Nat) : Nat → Nat → Nat × Nat
  | idx, 0 => (ctl idx, idx + 1)
  | idx, counterPre + 1 =>
    let status := ctl idx
    if status &&& CONTROL_PROBEN ≠ 0 then (status, idx + 1)
    else if counterPre = 0 then (status, idx + 1)
    else innerPollAux ctl (idx + 1) counterPre

/-- adapter-neofoxx.c lines 737-825: the outer entry do-while of
serial_execution, abstracted to its observables.  Each iteration
issues only write commands (reset sequencing, TAP switches,
EJTAGBOOT), then runs the inner poll; the per-iteration sends carry no
information for the claims and are dropped.  On ProbEn the loop exits
successfully; otherwise in JTAG/default mode a family without shared
pins (not MX1/MX3) hits the terminal exit(-1), MX1/MX3 run the
pulse-reset ICSP-sync recovery (sends only) and retry; the
post-decrement while test `counter-- > 1` continues while the counter
before decrementing exceeds 1.  The counter argument is the current
value of `counter`; the entry call passes 20. -/
def outerLoop (iface : Iface) (family : Family) (ctl : Nat → Nat) :
    Nat → Nat → LoopResult
  | idx, 0 =>
    let r := innerPollAux ctl idx 11
    if r.1 &&& CONTROL_PROBEN ≠ 0 then ⟨.returnedEntered, 1, r.2⟩
    else if (iface = .jtag ∨ iface = .default) ∧ ¬(family = .mx1 ∨ family = .mx3) then
      ⟨.fatalRecovery, 1, r.2⟩
    else ⟨.returnedFailed, 1, r.2⟩
  | idx, counter + 1 =>
    let r := innerPollAux ctl idx 11
    if r.1 &&& CONTROL_PROBEN ≠ 0 then ⟨.returnedEntered, 1, r.2⟩
    else if (iface = .jtag ∨ iface = .default) ∧ ¬(family = .mx1 ∨ family = .mx3) then
      ⟨.fatalRecovery, 1, r.2⟩
    else if counter = 0 then ⟨.returnedFailed, 1, r.2⟩
    else
      let rest := outerLoop iface family ctl r.2 counter
      ⟨rest.outcome, rest.iters + 1, rest.nextIdx⟩

/-- Observable result of one serial_execution call. -/
structure SEResult where
  outcome : SEOutcome
  serial_execution_mode : Bool
  outerIters : Nat
  ctlReads : Nat
deriving DecidableEq

/-- adapter-neofoxx.c lines 710-832 (serial_execution): early return
when the sticky flag is already set; otherwise the flag is set first
(line 718), then MTAP is selected and MCHP_STATUS read (`status0`); if
the CPS bit of the status is clear the call is fatal with the
erase-first diagnostic (lines 732-735); otherwise the outer entry loop
runs with counter = 20.  `ctl` is the stream of control-register read
results consumed by the inner polls. -/
def serial_execution (serial_execution_mode : Bool) (iface : Iface)
    (family : Family) (status0 : Nat) (ctl : Nat → Nat) : SEResult :=
  if serial_execution_mode then ⟨.noop, serial_execution_mode, 0, 0⟩
  else if status0 &&& MCHP_STATUS_CPS = 0 then ⟨.fatalCps, true, 0, 0⟩
  else
    let r := outerLoop iface family ctl 0 20
    ⟨r.outcome, true, r.iters, r.nextIdx⟩

/-- Outcome of a PE program operation. -/
inductive PWOutcome where
  | fatalNoPE
  | fatalBadResponse
  | ok
deriving DecidableEq

/-- Observables of one PE program call: whether the
unsupported-on-this-family diagnostic was printed, the 32-bit words
pushed through the FASTDATA channel, and how the call ended. -/
structure ProgramResult where
  warnedUnsupported : Bool
  fastdataSent : List Nat
  outcome : PWOutcome
deriving DecidableEq

/-- adapter-neofoxx.c lines 1200-1240 (neofoxx_program_word): on
family MM the unsupported diagnostic is printed (line 1207) but the
function does not return there; without a resident PE the call is
fatal (line 1215); otherwise the FASTDATA sequence
PE_WORD_PROGRAM<<16|2, addr, word is sent and the PE response checked
against PE_WORD_PROGRAM<<16 (fatal on mismatch).  `resp` is the PE
response word. -/
def neofoxx_program_word (family : Family) (use_executive : Bool)
    (addr word resp : Nat) : ProgramResult :=
  let warned := family = Family.mm
  if ¬use_executive then ⟨warned, [], .fatalNoPE⟩
  else
    let sent := [PE_WORD_PROGRAM <<< 16 ||| 2, addr, word]
    if resp ≠ PE_WORD_PROGRAM <<< 16 then ⟨warned, sent, .fatalBadResponse⟩
    else ⟨warned, sent, .ok⟩

/-- adapter-neofoxx.c lines 1285-1332 (neofoxx_program_quad_word): on
families other than MK and MZ the unsupported diagnostic is printed
(line 1292) but the function does not return there; without a resident
PE the call is fatal; otherwise the FASTDATA sequence
PE_QUAD_WORD_PGRM<<16, addr, w0..w3 is sent and the PE response
checked. -/
def neofoxx_program_quad_word (family : Family) (use_executive : Bool)
    (addr w0 w1 w2 w3 resp : Nat) : ProgramResult :=
  let warned := ¬(family = Family.mk ∨ family = Family.mz)
  if ¬use_executive then ⟨warned, [], .fatalNoPE⟩
  else
    let sent := [PE_QUAD_WORD_PGRM <<< 16, addr, w0, w1, w2, w3]
    if resp ≠ PE_QUAD_WORD_PGRM <<< 16 then ⟨warned, sent, .fatalBadResponse⟩
    else ⟨warned, sent, .ok⟩

/-- Outcome of neofoxx_verify_data. -/
inductive VerifyOutcome where
  | fatalNoPE
  | fatalBadEcho
  | okWarn
  | ok
deriving DecidableEq

/-- The byte image of an array of 32-bit words on the little-endian
host, as the `(unsigned char *) data` cast in neofoxx_verify_data sees
it: nwords words give nwords*4 bytes. -/
def wordsToBytesLE : List Nat → List Nat
  | [] => []
  | w :: rest => le32 w ++ wordsToBytesLE rest

/-- adapter-neofoxx.c lines 1418-1464 (neofoxx_verify_data): without a
resident PE the call is fatal; the GET_CRC request is sent, and the
first PE response must equal PE_GET_CRC<<16 exactly or the call is
fatal (lines 1446-1451); the low 16 bits of the second response are
the device CRC, compared against calculate_crc(0xffff, data, nwords*4)
— a mismatch only logs (the exit is commented out, line 1457) and the
call returns normally.  `data` is the word list (so nwords =
data.length), `resp1`/`resp2` the two PE response words. -/
def neofoxx_verify_data (use_executive : Bool) (data : List Nat)
    (resp1 resp2 : Nat) : VerifyOutcome :=
  if ¬use_executive then .fatalNoPE
  else if resp1 ≠ PE_GET_CRC <<< 16 then .fatalBadEcho
  else
    let flash_crc := resp2 &&& 0xffff
    let data_crc := calculate_crc 0xffff (wordsToBytesLE data)
    if flash_crc ≠ data_crc then .okWarn else .ok

/-- adapter-neofoxx.c lines 957-963: the no-PE path of
neofoxx_read_data, one neofoxx_read_word per word at consecutive
addresses addr, addr+4, ...  `rw` abstracts neofoxx_read_word. -/
def neofoxx_read_data_noPE (rw : Nat → Nat) : Nat → Nat → List Nat
  | _, 0 => []
  | addr, nwords + 1 => rw addr :: neofoxx_read_data_noPE rw (addr + 4) nwords

/-- adapter-neofoxx.c lines 966-983: the PE path of neofoxx_read_data.
Each burst sends PE_READ<<16|32 and the address over FASTDATA, then
calls get_pe_response 33 times: once for the opcode echo (fatal if it
is not PE_READ<<16) and 32 times for the data words; the loop then
advances by 32 words while words_read < nwords.  `pe` is the stream of
get_pe_response results, `idx` the next stream index, `remaining` =
nwords - words_read.  Returns the words written through the output
pointer and the number of bursts, or none on the fatal echo check. -/
def readDataPEAux (pe : Nat → Nat) (idx : Nat) (remaining : Nat) :
    Option (List Nat × Nat) :=
  if remaining = 0 then some ([], 0)
  else if pe idx ≠ PE_READ <<< 16 then none
  else
    (readDataPEAux pe (idx + 33) (remaining - 32)).map
      (fun rb => (((List.range 32).map fun i => pe (idx + 1 + i)) ++ rb.1, rb.2 + 1))
termination_by remaining
decreasing_by omega

/-- adapter-neofoxx.c lines 945-988 (neofoxx_read_data): without the
use-executive flag, read word by word via neofoxx_read_word; with it,
read in 32-word PE bursts. -/
def neofoxx_read_data (use_executive : Bool) (rw pe : Nat → Nat)
    (addr nwords : Nat) : Option (List Nat × Nat) :=
  if ¬use_executive then some (neofoxx_read_data_noPE rw addr nwords, 0)
  else readDataPEAux pe 0 nwords

/-- Shape of the packet bulk_write emits for a well-formed outbound
buffer (sync byte, two zero placeholders, non-empty payload): the
checksum byte is appended and the two placeholders are patched. -/
theorem bulk_write_cons_shape (a : Nat) (t : List Nat) :
    bulk_write (PACKET_BYTE :: 0 :: 0 :: a :: t) =
      PACKET_BYTE :: ((t.length + 2) % 65536 % 256)
        :: (((t.length + 2) % 65536) >>> 8)
        :: a :: (t ++ [(a + t.sum) % 256]) := by
  have hc : ¬ (PACKET_BYTE :: 0 :: 0 :: a :: t).length < 4 := by
    simp only [List.length_cons]
    omega
  rw [bulk_write, if_neg hc]
  simp [List.set, List.length_append, List.length_cons, Nat.add_sub_cancel]

/-- Claim C6: in every packet written by flush, the two length-field
bytes encode total_length minus 3 little-endian -- the byte at offset 1
is the low byte and the byte at offset 2 the high byte -- and that
value equals the number of bytes following the length field (payload
plus checksum byte). -/
theorem claim_C6_length_field (payload : List Nat) (h1 : payload ≠ [])
    (h2 : payload.length ≤ 2044) :
    (bulk_write (PACKET_BYTE :: 0 :: 0 :: payload))[1]? =
      some (((bulk_write (PACKET_BYTE :: 0 :: 0 :: payload)).length - 3) % 256) ∧
    (bulk_write (PACKET_BYTE :: 0 :: 0 :: payload))[2]? =
      some (((bulk_write (PACKET_BYTE :: 0 :: 0 :: payload)).length - 3) / 256) ∧
    (bulk_write (PACKET_BYTE :: 0 :: 0 :: payload)).length - 3 =
      ((bulk_write (PACKET_BYTE :: 0 :: 0 :: payload)).drop 3).length := by
  obtain ⟨a, t, rfl⟩ := List.exists_cons_of_ne_nil h1
  rw [bulk_write_cons_shape]
  have hlen : t.length + 2 < 65536 := by
    simp only [List.length_cons] at h2
    omega
  have hm : (t.length + 2) % 65536 = t.length + 2 := Nat.mod_eq_of_lt hlen
  rw [hm]
  refine ⟨?_, ?_, ?_⟩
  · simp [List.length_append, List.length_cons]
  · simp [List.length_append, List.length_cons, Nat.shiftRight_eq_div_pow]
  · simp [List.length_append, List.length_cons]

/-- Claim C7: the trailing checksum byte of every packet written by
flush equals the 8-bit sum mod 256 of the payload bytes, i.e. the sum
of the bytes following the length field as they stood before the
length placeholders were patched. -/
theorem claim_C7_checksum (payload : List Nat) (h1 : payload ≠ []) :
    (bulk_write (PACKET_BYTE :: 0 :: 0 :: payload)).getLast? =
      some (payload.sum % 256) := by
  obtain ⟨a, t, rfl⟩ := List.exists_cons_of_ne_nil h1
  rw [bulk_write_cons_shape]
  have hshape : PACKET_BYTE :: ((t.length + 2) % 65536 % 256)
      :: (((t.length + 2) % 65536) >>> 8) :: a :: (t ++ [(a + t.sum) % 256]) =
      (PACKET_BYTE :: ((t.length + 2) % 65536 % 256)
        :: (((t.length + 2) % 65536) >>> 8) :: a :: t) ++ [(a + t.sum) % 256] := by
    simp
  rw [hshape, List.getLast?_concat]
  simp

/-- Claim C6 witness at the concrete payload [1, 2, 3]. -/
theorem claim_C6_witness :
    (bulk_write (PACKET_BYTE :: 0 :: 0 :: [1, 2, 3]))[1]? =
      some (((bulk_write (PACKET_BYTE :: 0 :: 0 :: [1, 2, 3])).length - 3) % 256) ∧
    (bulk_write (PACKET_BYTE :: 0 :: 0 :: [1, 2, 3]))[2]? =
      some (((bulk_write (PACKET_BYTE :: 0 :: 0 :: [1, 2, 3])).length - 3) / 256) ∧
    (bulk_write (PACKET_BYTE :: 0 :: 0 :: [1, 2, 3])).length - 3 =
      ((bulk_write (PACKET_BYTE :: 0 :: 0 :: [1, 2, 3])).drop 3).length :=
  claim_C6_length_field [1, 2, 3] (by decide) (by decide)

/-- Claim C7 witness at the concrete payload [200, 100]. -/
theorem claim_C7_witness :
    (bulk_write (PACKET_BYTE :: 0 :: 0 :: [200, 100])).getLast? =
      some (([200, 100] : List Nat).sum % 256) :=
  claim_C7_checksum [200, 100] (by decide)

/-- Claim C5 (amended): flush is a no-op on a session whose outbound
buffer is empty; after every flush of a non-empty outbound buffer the
outbound buffer is empty and the expected-reply length is zero, and
the inbound read cursor is reset to zero when a reply was expected but
keeps its previous value when none was. -/
theorem claim_C5_flush_amended (s : Session) (reply : List Nat) :
    (s.output = [] → neofoxx_flush_output s reply = s) ∧
    (s.output ≠ [] →
      (neofoxx_flush_output s reply).output = [] ∧
      (neofoxx_flush_output s reply).bytes_to_read = 0 ∧
      (s.bytes_to_read ≠ 0 →
        (neofoxx_flush_output s reply).current_pos_input = 0) ∧
      (s.bytes_to_read = 0 →
        (neofoxx_flush_output s reply).current_pos_input = s.current_pos_input)) := by
  constructor
  · intro h
    simp [neofoxx_flush_output, h]
  · intro h
    by_cases hb : s.bytes_to_read = 0 <;>
      simp [neofoxx_flush_output, List.isEmpty_iff, h, hb]

/-- Claim C5 counterexample: flushing a session whose outbound buffer
is non-empty while no reply is expected leaves the read cursor at its
old value 5 instead of resetting it to zero. -/
theorem claim_C5_counterexample :
    (Session.mk [1] [] 0 5).output ≠ [] ∧
    (Session.mk [1] [] 0 5).bytes_to_read = 0 ∧
    (neofoxx_flush_output (Session.mk [1] [] 0 5) []).current_pos_input = 5 := by
  decide

/-- Claim C5 witness at concrete sessions, one empty and one with a
pending reply. -/
theorem claim_C5_witness :
    neofoxx_flush_output (Session.mk [] [7] 3 2) [1, 2, 3] = Session.mk [] [7] 3 2 ∧
    (neofoxx_flush_output (Session.mk [9] [7] 3 2) [1, 2, 3]).output = [] ∧
    (neofoxx_flush_output (Session.mk [9] [7] 3 2) [1, 2, 3]).bytes_to_read = 0 ∧
    (neofoxx_flush_output (Session.mk [9] [7] 3 2) [1, 2, 3]).current_pos_input = 0 :=
  ⟨(claim_C5_flush_amended (Session.mk [] [7] 3 2) [1, 2, 3]).1 rfl,
   ((claim_C5_flush_amended (Session.mk [9] [7] 3 2) [1, 2, 3]).2 (by decide)).1,
   ((claim_C5_flush_amended (Session.mk [9] [7] 3 2) [1, 2, 3]).2 (by decide)).2.1,
   ((claim_C5_flush_amended (Session.mk [9] [7] 3 2) [1, 2, 3]).2 (by decide)).2.2.1
     (by decide)⟩

/-- Claim C4 (amended): xferData with the read flag set flushes and
returns the full 64-bit reply word (the first 8 bytes of the freshly
read reply, little-endian) with no masking to nBits; the returned
value equals the low nBits of the reply exactly when the reply word is
below 2 ^ nBits. -/
theorem claim_C4_xferData_amended (s : Session) (nBits iData : Nat)
    (immediate : Bool) (reply : List Nat) :
    (neofoxx_xferData s nBits iData true immediate reply).1 =
      leVal (reply.take 8) ∧
    ((neofoxx_xferData s nBits iData true immediate reply).1 =
        leVal (reply.take 8) % 2 ^ nBits ↔ leVal (reply.take 8) < 2 ^ nBits) := by
  have hmin : min 8 (s.bytes_to_read + 8) = 8 := by omega
  have h1 : (neofoxx_xferData s nBits iData true immediate reply).1 =
      leVal (reply.take 8) := by
    by_cases h : s.output.isEmpty <;>
      simp [neofoxx_xferData, neofoxx_send, neofoxx_recv, neofoxx_flush_output,
            add_to_packet, h, List.take_take, hmin]
  refine ⟨h1, ?_⟩
  rw [h1]
  constructor
  · intro h2
    calc leVal (reply.take 8) = leVal (reply.take 8) % 2 ^ nBits := h2
    _ < 2 ^ nBits := Nat.mod_lt _ (Nat.pos_pow_of_pos nBits (by omega))
  · intro h2
    exact (Nat.mod_eq_of_lt h2).symm

/-- Claim C4 counterexample: with nBits = 8 (between 1 and 64) the
reply bytes 00 01 00 00 00 00 00 00 make xferData return 256, whose
bit 8 is set, instead of the low 8 bits (which would be 0). -/
theorem claim_C4_counterexample :
    (1 ≤ 8 ∧ (8 : Nat) ≤ 64) ∧
    (neofoxx_xferData (Session.mk [] [] 0 0) 8 0 true true
        [0, 1, 0, 0, 0, 0, 0, 0]).1 = 256 ∧
    (256 : Nat) ≠ 256 % 2 ^ 8 := by
  decide

/-- Against a control-register stream that never shows ProbEn, the
inner re-verify poll always reports a status with ProbEn clear. -/
theorem innerPollAux_land (ctl : Nat → Nat)
    (h : ∀ i, ctl i &&& CONTROL_PROBEN = 0) :
    ∀ cp idx, (innerPollAux ctl idx cp).1 &&& CONTROL_PROBEN = 0 := by
  intro cp
  induction cp with
  | zero => intro idx; simp [innerPollAux, h]
  | succ n ih =>
      intro idx
      by_cases hn : n = 0 <;> simp [innerPollAux, h, hn, ih]

/-- The outer entry loop never ends in the erase-first fatal exit. -/
theorem outerLoop_ne_fatalCps (iface : Iface) (family : Family)
    (ctl : Nat → Nat) : ∀ counter idx,
    (outerLoop iface family ctl idx counter).outcome ≠ SEOutcome.fatalCps := by
  intro counter
  induction counter with
  | zero =>
      intro idx
      rw [outerLoop]
      split_ifs <;> simp
  | succ n ih =>
      intro idx
      rw [outerLoop]
      split_ifs <;> simp [ih]

/-- The outer entry loop always runs at least one iteration. -/
theorem outerLoop_iters_pos (iface : Iface) (family : Family)
    (ctl : Nat → Nat) : ∀ counter idx,
    1 ≤ (outerLoop iface family ctl idx counter).iters := by
  intro counter
  induction counter with
  | zero =>
      intro idx
      rw [outerLoop]
      split_ifs <;> simp
  | succ n ih =>
      intro idx
      rw [outerLoop]
      split_ifs <;> simp

/-- Started with counter value c + 1, the outer entry loop runs at
most c + 1 iterations (so the entry call with counter = 20 runs at
most 20). -/
theorem outerLoop_iters_le (iface : Iface) (family : Family)
    (ctl : Nat → Nat) : ∀ c idx,
    (outerLoop iface family ctl idx (c + 1)).iters ≤ c + 1 := by
  intro c
  induction c with
  | zero =>
      intro idx
      rw [outerLoop]
      split_ifs <;> simp_all
  | succ n ih =>
      intro idx
      rw [outerLoop]
      split_ifs <;> simp_all

/-- In ICSP mode, against a stream that never shows ProbEn, the outer
entry loop started with counter value c + 1 runs exactly c + 1
iterations and returns without having entered. -/
theorem outerLoop_icsp_iters_exact (family : Family) (ctl : Nat → Nat)
    (h : ∀ i, ctl i &&& CONTROL_PROBEN = 0) : ∀ c idx,
    (outerLoop .icsp family ctl idx (c + 1)).iters = c + 1 := by
  intro c
  induction c with
  | zero =>
      intro idx
      rw [outerLoop]
      simp [innerPollAux_land ctl h]
  | succ n ih =>
      intro idx
      rw [outerLoop]
      simp [innerPollAux_land ctl h, ih]

/-- Claim C1 (amended): on a first call (sticky flag clear),
serial_execution terminates fatally with the erase-first diagnostic if
and only if the CPS bit of the status word read via MCHP_STATUS is
CLEAR; when the CPS bit is set it proceeds past the status check into
the reset/EJTAGBOOT entry loop (at least one outer iteration runs). -/
theorem claim_C1_cps_amended (iface : Iface) (family : Family)
    (status0 : Nat) (ctl : Nat → Nat) :
    ((serial_execution false iface family status0 ctl).outcome = SEOutcome.fatalCps
      ↔ status0 &&& MCHP_STATUS_CPS = 0) ∧
    (status0 &&& MCHP_STATUS_CPS ≠ 0 →
      1 ≤ (serial_execution false iface family status0 ctl).outerIters) := by
  by_cases h : status0 &&& MCHP_STATUS_CPS = 0
  · simp [serial_execution, h]
  · simp only [serial_execution, if_neg h, Bool.false_eq_true, if_false]
    refine ⟨⟨fun hc => absurd hc (outerLoop_ne_fatalCps iface family ctl 20 0),
            fun hc => absurd hc h⟩, fun _ => outerLoop_iters_pos iface family ctl 20 0⟩

/-- Claim C1 counterexample: with the CPS bit clear (status 0) the
call is fatal with the erase-first diagnostic before any entry-loop
iteration, and with the CPS bit set it is not -- the opposite polarity
of the claim. -/
theorem claim_C1_counterexample :
    (0 : Nat) &&& MCHP_STATUS_CPS = 0 ∧
    (serial_execution false .icsp .mm 0 (fun _ => 0)).outcome = SEOutcome.fatalCps ∧
    (serial_execution false .icsp .mm 0 (fun _ => 0)).outerIters = 0 ∧
    MCHP_STATUS_CPS &&& MCHP_STATUS_CPS ≠ 0 ∧
    (serial_execution false .icsp .mm MCHP_STATUS_CPS (fun _ => 0)).outcome ≠
      SEOutcome.fatalCps := by
  decide

/-- Claim C1 witness at a CPS-set status word in ICSP mode. -/
theorem claim_C1_witness :
    ((serial_execution false .icsp .mm 128 (fun _ => 0)).outcome = SEOutcome.fatalCps
      ↔ (128 : Nat) &&& MCHP_STATUS_CPS = 0) ∧
    1 ≤ (serial_execution false .icsp .mm 128 (fun _ => 0)).outerIters :=
  ⟨(claim_C1_cps_amended .icsp .mm 128 (fun _ => 0)).1,
   (claim_C1_cps_amended .icsp .mm 128 (fun _ => 0)).2 (by decide)⟩

/-- Claim C8 (amended): the serial-execution flag is set at the start
of the first call, before any entry attempt and regardless of whether
entry succeeds; once the flag is set, every subsequent call returns
immediately with nothing else observable. -/
theorem claim_C8_flag_amended (iface : Iface) (family : Family)
    (status0 : Nat) (ctl : Nat → Nat) :
    serial_execution true iface family status0 ctl =
      SEResult.mk SEOutcome.noop true 0 0 ∧
    (serial_execution false iface family status0 ctl).serial_execution_mode = true := by
  refine ⟨rfl, ?_⟩
  by_cases h : status0 &&& MCHP_STATUS_CPS = 0 <;> simp [serial_execution, h]

/-- Claim C8 counterexample: a first call against a target that never
sets ProbEn fails to enter serial-execution mode (it returns after
exhausting the entry loop, never entered), yet the sticky flag ends up
set -- the claim says it remains clear on every failed entry. -/
theorem claim_C8_counterexample :
    (serial_execution false .icsp .mm 128 (fun _ => 0)).outcome =
      SEOutcome.returnedFailed ∧
    (serial_execution false .icsp .mm 128 (fun _ => 0)).serial_execution_mode =
      true := by
  decide

/-- Claim C9: against a target whose control-register reads never have
the ProbEn bit set, serial_execution terminates after at most 20 outer
entry-loop iterations; in ICSP mode on a first call that passes the
status check it gives up after exactly 20. -/
theorem claim_C9_bound (flag : Bool) (iface : Iface) (family : Family)
    (status0 : Nat) (ctl : Nat → Nat)
    (h : ∀ i, ctl i &&& CONTROL_PROBEN = 0) :
    (serial_execution flag iface family status0 ctl).outerIters ≤ 20 ∧
    (flag = false → status0 &&& MCHP_STATUS_CPS ≠ 0 → iface = Iface.icsp →
      (serial_execution flag iface family status0 ctl).outerIters = 20) := by
  constructor
  · cases flag
    · by_cases hc : status0 &&& MCHP_STATUS_CPS = 0
      · simp [serial_execution, hc]
      · simp only [serial_execution, Bool.false_eq_true, if_false, if_neg hc]
        exact outerLoop_iters_le iface family ctl 19 0
    · simp [serial_execution]
  · rintro rfl hc rfl
    simp only [serial_execution, Bool.false_eq_true, if_false, if_neg hc]
    exact outerLoop_icsp_iters_exact family ctl h 19 0

/-- Claim C9 witness: the all-zero control stream never shows ProbEn,
and a first ICSP call with a CPS-set status runs exactly 20 outer
iterations. -/
theorem claim_C9_witness :
    (serial_execution false .icsp .mm 128 (fun _ => 0)).outerIters ≤ 20 ∧
    (serial_execution false .icsp .mm 128 (fun _ => 0)).outerIters = 20 :=
  ⟨(claim_C9_bound false .icsp .mm 128 (fun _ => 0) (fun _ => by simp)).1,
   (claim_C9_bound false .icsp .mm 128 (fun _ => 0) (fun _ => by simp)).2 rfl
     (by decide) rfl⟩

/-- Claim C2 (code bug): on family MM, program_word prints the
unsupported-operation diagnostic (whose text announces quitting) but,
as the exit call is missing, proceeds to issue the PE FASTDATA
word-program sequence and completes; likewise program_quad_word on
family MX1 (neither MK nor MZ).  The claim, and the code's own
diagnostic, say the calls fail without issuing any PE FASTDATA
command. -/
theorem claim_C2_code_bug :
    (neofoxx_program_word .mm true 0 0 (PE_WORD_PROGRAM <<< 16)).warnedUnsupported
      = true ∧
    (neofoxx_program_word .mm true 0 0 (PE_WORD_PROGRAM <<< 16)).fastdataSent =
      [PE_WORD_PROGRAM <<< 16 ||| 2, 0, 0] ∧
    (neofoxx_program_word .mm true 0 0 (PE_WORD_PROGRAM <<< 16)).outcome =
      PWOutcome.ok ∧
    (neofoxx_program_quad_word .mx1 true 0 0 0 0 0
        (PE_QUAD_WORD_PGRM <<< 16)).warnedUnsupported = true ∧
    (neofoxx_program_quad_word .mx1 true 0 0 0 0 0
        (PE_QUAD_WORD_PGRM <<< 16)).fastdataSent =
      [PE_QUAD_WORD_PGRM <<< 16, 0, 0, 0, 0, 0] ∧
    (neofoxx_program_quad_word .mx1 true 0 0 0 0 0
        (PE_QUAD_WORD_PGRM <<< 16)).outcome = PWOutcome.ok := by
  decide

/-- Claim C3 (amended): with a resident PE, verify_data terminates
fatally exactly when the first PE response differs from
PE_GET_CRC << 16 as a whole word -- in particular whenever the high 16
bits fail to echo the opcode, but also when they echo and the low 16
bits are nonzero; when the first response equals PE_GET_CRC << 16 and
the device CRC (low 16 bits of the second response) differs from the
host CRC over the data bytes, it only logs the mismatch and returns
normally. -/
theorem claim_C3_verify_amended (data : List Nat) (resp1 resp2 : Nat) :
    (neofoxx_verify_data true data resp1 resp2 = VerifyOutcome.fatalBadEcho ↔
      resp1 ≠ PE_GET_CRC <<< 16) ∧
    (resp1 = PE_GET_CRC <<< 16 →
      resp2 &&& 0xffff ≠ calculate_crc 0xffff (wordsToBytesLE data) →
      neofoxx_verify_data true data resp1 resp2 = VerifyOutcome.okWarn) := by
  by_cases h : resp1 = PE_GET_CRC <<< 16
  · by_cases hcrc : resp2 &&& 0xffff = calculate_crc 0xffff (wordsToBytesLE data) <;>
      simp [neofoxx_verify_data, h, hcrc]
  · simp [neofoxx_verify_data, h]

/-- Claim C3 counterexample: the first response PE_GET_CRC << 16 | 1
echoes the GET_CRC opcode in its high 16 bits, and the device CRC 0
differs from the host CRC of the empty range (0xffff), yet the call is
fatal instead of logging and returning normally. -/
theorem claim_C3_counterexample :
    (PE_GET_CRC <<< 16 ||| 1) >>> 16 = PE_GET_CRC ∧
    (0 : Nat) &&& 0xffff ≠ calculate_crc 0xffff (wordsToBytesLE []) ∧
    neofoxx_verify_data true [] (PE_GET_CRC <<< 16 ||| 1) 0 =
      VerifyOutcome.fatalBadEcho := by
  decide

/-- Claim C3 witness: an exact opcode echo with a mismatching device
CRC logs and returns normally. -/
theorem claim_C3_witness :
    (neofoxx_verify_data true [] (PE_GET_CRC <<< 16) 0 = VerifyOutcome.fatalBadEcho ↔
      PE_GET_CRC <<< 16 ≠ PE_GET_CRC <<< 16) ∧
    neofoxx_verify_data true [] (PE_GET_CRC <<< 16) 0 = VerifyOutcome.okWarn :=
  ⟨(claim_C3_verify_amended [] (PE_GET_CRC <<< 16) 0).1,
   (claim_C3_verify_amended [] (PE_GET_CRC <<< 16) 0).2 rfl (by decide)⟩

/-- The PE read loop, started with `remaining` words still to read at
stream position `idx`, performs ceil(remaining/32) bursts and collects
32 words per burst, provided every burst echo at positions idx + 33*k
is correct. -/
theorem readDataPEAux_spec (pe : Nat → Nat) :
    ∀ remaining idx, (∀ k, pe (idx + 33 * k) = PE_READ <<< 16) →
    ∃ l : List Nat,
      readDataPEAux pe idx remaining = some (l, (remaining + 31) / 32) ∧
      l.length = 32 * ((remaining + 31) / 32) := by
  intro remaining
  induction remaining using Nat.strong_induction_on with
  | _ remaining ih =>
    intro idx h
    by_cases h0 : remaining = 0
    · subst h0
      exact ⟨[], by rw [readDataPEAux]; simp, by simp⟩
    · have hpe : pe idx = PE_READ <<< 16 := by
        have h' := h 0
        simpa using h'
      obtain ⟨l, hl, hlen⟩ := ih (remaining - 32) (by omega) (idx + 33)
        (fun k => by
          have h33 : idx + 33 + 33 * k = idx + 33 * (k + 1) := by ring
          rw [h33]
          exact h (k + 1))
      have hdiv : (remaining - 32 + 31) / 32 + 1 = (remaining + 31) / 32 := by
        omega
      refine ⟨((List.range 32).map fun i => pe (idx + 1 + i)) ++ l, ?_, ?_⟩
      · rw [readDataPEAux, if_neg h0, if_neg (by simp [hpe]), hl, Option.map_some']
        rw [hdiv]
      · simp only [List.length_append, List.length_map, List.length_range, hlen]
        omega

/-- The no-PE path returns exactly nwords words. -/
theorem read_data_noPE_length (rword : Nat → Nat) :
    ∀ nwords addr, (neofoxx_read_data_noPE rword addr nwords).length = nwords := by
  intro nwords
  induction nwords with
  | zero => intro addr; rfl
  | succ n ih => intro addr; simp [neofoxx_read_data_noPE, ih]

/-- The no-PE path reads word i from address addr + 4 * i. -/
theorem read_data_noPE_get (rword : Nat → Nat) :
    ∀ nwords addr i, i < nwords →
      (neofoxx_read_data_noPE rword addr nwords)[i]? =
        some (rword (addr + 4 * i)) := by
  intro nwords
  induction nwords with
  | zero => intro addr i hi; omega
  | succ n ih =>
      intro addr i hi
      cases i with
      | zero => simp [neofoxx_read_data_noPE]
      | succ j =>
          have hj := ih (addr + 4) j (by omega)
          have ha : addr + 4 + 4 * j = addr + 4 * (j + 1) := by ring
          rw [ha] at hj
          simp [neofoxx_read_data_noPE, hj]

/-- Claim C10: for every nwords > 0, read_data with the use-executive
flag set issues ceil(nwords/32) PE READ bursts and writes exactly
32 * ceil(nwords/32) words through the output pointer -- strictly more
than nwords whenever nwords is not a multiple of 32 -- while with the
flag clear it writes exactly nwords words, one read_word per
consecutive address addr + 4 * i. -/
theorem claim_C10_read_data (rword pe : Nat → Nat) (addr nwords : Nat)
    (h0 : 0 < nwords) (h : ∀ k, pe (33 * k) = PE_READ <<< 16) :
    (∃ l : List Nat,
      neofoxx_read_data true rword pe addr nwords =
        some (l, (nwords + 31) / 32) ∧
      l.length = 32 * ((nwords + 31) / 32) ∧
      (nwords % 32 ≠ 0 → nwords < l.length)) ∧
    neofoxx_read_data false rword pe addr nwords =
      some (neofoxx_read_data_noPE rword addr nwords, 0) ∧
    (neofoxx_read_data_noPE rword addr nwords).length = nwords ∧
    (∀ i, i < nwords →
      (neofoxx_read_data_noPE rword addr nwords)[i]? =
        some (rword (addr + 4 * i))) := by
  refine ⟨?_, by simp [neofoxx_read_data], read_data_noPE_length rword nwords addr,
    fun i hi => read_data_noPE_get rword nwords addr i hi⟩
  obtain ⟨l, hl, hlen⟩ := readDataPEAux_spec pe nwords 0
    (fun k => by simpa using h k)
  refine ⟨l, by simpa [neofoxx_read_data] using hl, hlen, fun hm => ?_⟩
  omega

/-- Claim C10 witness at nwords = 33 (not a multiple of 32): two
bursts, 64 words written, strictly more than 33. -/
theorem claim_C10_witness :
    (∃ l : List Nat,
      neofoxx_read_data true (fun _ => 7) (fun _ => PE_READ <<< 16) 0 33 =
        some (l, (33 + 31) / 32) ∧
      l.length = 32 * ((33 + 31) / 32) ∧
      (33 % 32 ≠ 0 → 33 < l.length)) ∧
    neofoxx_read_data false (fun _ => 7) (fun _ => PE_READ <<< 16) 0 33 =
      some (neofoxx_read_data_noPE (fun _ => 7) 0 33, 0) ∧
    (neofoxx_read_data_noPE (fun _ => 7) 0 33).length = 33 ∧
    (∀ i, i < 33 →
      (neofoxx_read_data_noPE (fun _ => 7) 0 33)[i]? =
        some ((fun _ => 7) (0 + 4 * i))) :=
  claim_C10_read_data (fun _ => 7) (fun _ => PE_READ <<< 16) 0 33 (by decide)
    (fun _ => rfl)
